import Mathlib

/- Formalisation of the untrusted-code execution engine of qykr/tcg-analysis:
   src/generation/utils.py (run_code, _run_code_wrapper, test_code_single_case,
   test_code_multi_cases, test_multi_code) together with the CodeResult
   dataclass of src/generation/data_structures.py.

   Modelling choices: wall-clock time, peak-memory sampling, the outcome of
   the exec call and the fate of the spawned worker process are external
   effects; they are supplied by oracles (ExecBehavior / WorkerBehavior,
   packaged in Env).  Executions of the same (code, input) pair under one Env
   are reproducible, which is what makes "a batch entry equals what a
   single-request run would produce" a meaningful statement.  All control
   flow, classification logic and data plumbing of the Python source is
   translated literally.  Times and megabyte counts are modelled as Rat. -/

namespace Generation

/-- Result from executing a piece of code: the CodeResult dataclass of
src/generation/data_structures.py with fields time (seconds), memory (MB),
verdict (a string), and optional output and error both defaulting to None. -/
structure CodeResult where
  time : Rat
  memory : Rat
  verdict : String
  output : Option String := none
  error : Option String := none
deriving Repr, DecidableEq

/-- Keys of the default_globals dictionary of src/generation/utils.py, the
global namespace handed to exec: "__builtins__" is bound to the interpreter's
full builtins module, "math", "random" and "np" to the math, random and numpy
modules, and "sys" to the sys module. -/
def default_globals : List String :=
  ["__builtins__", "math", "random", "np", "sys"]

/-- Outcome of the exec call inside run_code as observed by the surrounding
Python code: either the snippet completes, with captured stdout, elapsed time
and sampled peak memory, or it raises an Exception whose str() is errMsg,
with elapsed time and peak memory sampled at the failure point.  (A worker
that dies without reaching either point never reports; that fate lives in
WorkerBehavior instead.) -/
inductive ExecBehavior where
  | completes (output : String) (elapsed peakMemory : Rat)
  | raises (errMsg : String) (elapsed peakMemory : Rat)
deriving Repr, DecidableEq

/-- Fate of the spawned worker process as observed by _run_code_wrapper:
still alive when time_limit elapses; exited with its queued result readable;
or exited with the result channel still empty, in which case the bounded
queue read raises an exception whose str() is exnMsg (for queue.Empty that
string is empty). -/
inductive WorkerBehavior where
  | aliveAtTimeout
  | exitedDelivered
  | exitedChannelEmpty (exnMsg : String)
deriving Repr, DecidableEq

/-- Oracle for the external effects of one execution: execRun gives the exec
outcome for a (code, stdin, globals-keys) triple, worker gives the process
fate for a (code, stdin) pair. -/
structure Env where
  execRun : String → String → List String → ExecBehavior
  worker : String → String → WorkerBehavior

/-- run_code (src/generation/utils.py lines 88-152): runs code with stdin
redirected to case_input and stdout captured, executing it via exec against
default_globals, and puts exactly one CodeResult on the output queue.  On an
Exception: verdict "Memory Limit Error" when the sampled peak memory is at or
above memory_limit, otherwise "Runtime Error", in both cases with
error = str(e) and no output.  On completion: verdict "OK" with the captured
stdout as output.  memory_limit defaults to 256 (MB). -/
def run_code (e : Env) (code case_input : String)
    (memory_limit : Rat := 256) : CodeResult :=
  match e.execRun code case_input default_globals with
  | .raises msg t m =>
      if memory_limit ≤ m then
        { time := t, memory := m, verdict := "Memory Limit Error",
          error := some msg }
      else
        { time := t, memory := m, verdict := "Runtime Error",
          error := some msg }
  | .completes out t m =>
      { output := some out, time := t, memory := m, verdict := "OK" }

/-- Timeout in seconds of the single bounded queue read that
_run_code_wrapper performs once the worker has exited:
output_queue.get(timeout=1) at src/generation/utils.py line 181. -/
def grace_read_timeout : Rat := 1

/-- _run_code_wrapper (src/generation/utils.py lines 154-188): takes one args
tuple (code, case, time_limit) — the tuple has no memory-limit component —
spawns run_code in a fresh process without passing a memory limit (so
run_code uses its default 256), and joins with timeout time_limit.  If the
worker is still alive it terminates it and returns a "Time Limit Error"
result with time = time_limit, memory = 0 and neither output nor error;
otherwise it reads the queue with the 1-second grace timeout, returning the
queued result, or, when that read raises, a synthesized "Runtime Error"
result with time = 0, memory = 0, no output and error = str(e). -/
def _run_code_wrapper (e : Env) (args : String × String × Rat) : CodeResult :=
  match args with
  | (code, case_, time_limit) =>
    match e.worker code case_ with
    | .aliveAtTimeout =>
        { time := time_limit, memory := 0, verdict := "Time Limit Error" }
    | .exitedDelivered => run_code e code case_
    | .exitedChannelEmpty msg =>
        { time := 0, memory := 0, verdict := "Runtime Error",
          error := some msg }

/-- test_code_single_case (src/generation/utils.py line 190): single case
execution, time_limit defaulting to 2. -/
def test_code_single_case (e : Env) (code case_ : String)
    (time_limit : Rat := 2) : CodeResult :=
  _run_code_wrapper e (code, case_, time_limit)

/-- test_code_multi_cases (src/generation/utils.py lines 194-218): returns []
for an empty case list, else builds args_list = [(code, case, time_limit) for
each case] and maps _run_code_wrapper over it through a process pool.
executor.map returns results in argument order whatever the completion order
of the workers, so the pool is modelled by List.map; the processes and
max_workers parameters only bound the pool size and do not affect the value
returned. -/
def test_code_multi_cases (e : Env) (code : String) (cases : List String)
    (time_limit : Rat := 2) : List CodeResult :=
  if cases.isEmpty then []
  else
    let args_list := cases.map fun case_ => (code, case_, time_limit)
    args_list.map (_run_code_wrapper e)

/-- test_multi_code (src/generation/utils.py lines 252-286): for empty codes
or empty cases returns []; otherwise builds the flat batch of tagged tuples
(code_idx, code, case) by iterating enumerate(codes) and, inside, cases (the
source keeps the parallel lists all_args and code_indices, merged here into
one list of tagged tuples built in the same order), maps _run_code_wrapper
over the whole flat batch, and regroups by appending each result to
results_by_code[code_idx] in batch order. -/
def test_multi_code (e : Env) (codes cases : List String)
    (time_limit : Rat := 2) : List (List CodeResult) :=
  if codes.isEmpty || cases.isEmpty then []
  else
    let all_args := codes.enum.flatMap fun p =>
      cases.map fun case_ => (p.1, p.2, case_)
    let all_results := all_args.map fun a =>
      (a.1, _run_code_wrapper e (a.2.1, a.2.2, time_limit))
    all_results.foldl
      (fun acc p => acc.set p.1 (acc.getD p.1 [] ++ [p.2]))
      (List.replicate codes.length [])

/-- Results the engine can hand to a caller: everything _run_code_wrapper can
return (results queued by run_code reach the caller through its
exitedDelivered branch) together with direct run_code outputs. -/
def EngineResult (r : CodeResult) : Prop :=
  (∃ e args, r = _run_code_wrapper e args) ∨
  (∃ e code input ml, r = run_code e code input ml)

/-- Whitelist of the four utility capabilities that the specification lists
for the execution namespace, written from the spec for comparison with
default_globals: basic math, pseudo-random number generation, a numeric
array library, and the system-call surface needed for I/O redirection. -/
def spec_namespace_whitelist : List String := ["math", "random", "np", "sys"]

/- Concrete environments used by witnesses and counterexamples. -/

/-- Environment whose executions complete normally with output "out",
elapsed time 1 s and peak memory 10 MB, the worker exiting in time and
delivering its result. -/
def env_ok : Env :=
  { execRun := fun _ _ _ => .completes "out" 1 10
    worker := fun _ _ => .exitedDelivered }

/-- Environment whose worker is still alive when the time limit elapses. -/
def env_tle : Env :=
  { execRun := fun _ _ _ => .completes "out" 1 10
    worker := fun _ _ => .aliveAtTimeout }

/-- Environment whose worker exits without writing to the result channel;
the grace read then raises queue.Empty, whose str() is the empty string. -/
def env_emptychan : Env :=
  { execRun := fun _ _ _ => .completes "out" 1 10
    worker := fun _ _ => .exitedChannelEmpty "" }

/-- Environment whose executions raise (a MemoryError, say) with peak memory
sampled at 300 MB, the worker delivering the queued result. -/
def env_mle : Env :=
  { execRun := fun _ _ _ => .raises "MemoryError" 1 300
    worker := fun _ _ => .exitedDelivered }

/-- Environment whose executions raise an exception with an empty textual
description, as a snippet consisting of the bare statement raise Exception
does (str of an argumentless Exception is the empty string), with peak
memory 10 MB, the worker delivering the queued result. -/
def env_raise_empty : Env :=
  { execRun := fun _ _ _ => .raises "" 1 10
    worker := fun _ _ => .exitedDelivered }

/-- C2: when the snippet raises an uncaught failure inside the worker,
run_code classifies against the peak memory sampled at the failure point —
"Memory Limit Error" when that peak is at or above memory_limit, otherwise
"Runtime Error" — and in both cases the result carries the failure's textual
description as error and no output. -/
theorem run_code_failure_classification (e : Env) (code input msg : String)
    (ml t m : Rat)
    (h : e.execRun code input default_globals = .raises msg t m) :
    run_code e code input ml =
      if ml ≤ m then
        { time := t, memory := m, verdict := "Memory Limit Error",
          output := none, error := some msg }
      else
        { time := t, memory := m, verdict := "Runtime Error",
          output := none, error := some msg } := by
  simp only [run_code, h]

/-- Witness for C2 at env_mle: a failure with peak memory 300 MB against the
default 256 MB limit. -/
theorem run_code_failure_classification_witness :
    run_code env_mle "c" "i" 256 =
      if (256 : Rat) ≤ 300 then
        { time := 1, memory := 300, verdict := "Memory Limit Error",
          output := none, error := some "MemoryError" }
      else
        { time := 1, memory := 300, verdict := "Runtime Error",
          output := none, error := some "MemoryError" } :=
  run_code_failure_classification env_mle "c" "i" "MemoryError" 256 1 300 rfl

/-- C3: when the worker is still alive as time_limit elapses, the wrapper
terminates it and returns "Time Limit Error" with time = time_limit,
memory = 0, and neither output nor error. -/
theorem run_code_wrapper_timeout (e : Env) (code case_ : String) (tl : Rat)
    (h : e.worker code case_ = .aliveAtTimeout) :
    _run_code_wrapper e (code, case_, tl) =
      { time := tl, memory := 0, verdict := "Time Limit Error",
        output := none, error := none } := by
  simp only [_run_code_wrapper, h]

/-- Witness for C3 at env_tle with time_limit = 2. -/
theorem run_code_wrapper_timeout_witness :
    _run_code_wrapper env_tle ("c", "i", 2) =
      { time := 2, memory := 0, verdict := "Time Limit Error",
        output := none, error := none } :=
  run_code_wrapper_timeout env_tle "c" "i" 2 rfl

/-- C5: when the worker exits without writing to its one-shot result channel
the wrapper does not hang and does not raise to the caller: its queue read is
bounded by the 1-second grace timeout and, the channel being empty, it
returns a synthesized "Runtime Error" result whose error field carries the
channel-read exception's description. -/
theorem run_code_wrapper_empty_channel (e : Env) (code case_ : String)
    (tl : Rat) (msg : String)
    (h : e.worker code case_ = .exitedChannelEmpty msg) :
    grace_read_timeout = 1 ∧
    (_run_code_wrapper e (code, case_, tl)).verdict = "Runtime Error" ∧
    (_run_code_wrapper e (code, case_, tl)).error = some msg := by
  refine ⟨rfl, ?_, ?_⟩ <;> simp only [_run_code_wrapper, h]

/-- Witness for C5 at env_emptychan. -/
theorem run_code_wrapper_empty_channel_witness :
    grace_read_timeout = 1 ∧
    (_run_code_wrapper env_emptychan ("c", "i", 2)).verdict = "Runtime Error" ∧
    (_run_code_wrapper env_emptychan ("c", "i", 2)).error = some "" :=
  run_code_wrapper_empty_channel env_emptychan "c" "i" 2 "" rfl

/-- C10: the fallback result synthesized after the empty-channel grace read
reports time = 0 and memory = 0 (not what the worker actually consumed),
carries no output, and its error text is the string form of the channel-read
exception, which may be the empty string. -/
theorem run_code_wrapper_fallback_fields (e : Env) (code case_ : String)
    (tl : Rat) (msg : String)
    (h : e.worker code case_ = .exitedChannelEmpty msg) :
    _run_code_wrapper e (code, case_, tl) =
      { time := 0, memory := 0, verdict := "Runtime Error",
        output := none, error := some msg } := by
  simp only [_run_code_wrapper, h]

/-- Witness for C10 at env_emptychan, whose channel-read exception has the
empty string as its textual form (str of queue.Empty). -/
theorem run_code_wrapper_fallback_fields_witness :
    _run_code_wrapper env_emptychan ("c", "i", 2) =
      { time := 0, memory := 0, verdict := "Runtime Error",
        output := none, error := some "" } :=
  run_code_wrapper_fallback_fields env_emptychan "c" "i" 2 "" rfl

/-- C8 counterexample: a snippet that raises an argumentless exception (for
example the bare statement raise Exception) has str(e) = "", so the returned
"Runtime Error" result carries the empty string as its error text — the
error field is set but the error string is NOT non-empty, refuting the claim
as stated. -/
theorem run_code_empty_error_counterexample :
    (_run_code_wrapper env_raise_empty ("raise Exception", "", 2)).verdict
        = "Runtime Error" ∧
    (_run_code_wrapper env_raise_empty ("raise Exception", "", 2)).error
        = some "" := by
  exact ⟨rfl, rfl⟩

/-- C8 amended: a snippet that raises an unhandled error with peak memory
below the memory limit yields "Runtime Error" with the error field set to
the failure's textual description — which may be the empty string — and no
output. -/
theorem run_code_runtime_error (e : Env) (code input msg : String)
    (ml t m : Rat)
    (hx : e.execRun code input default_globals = .raises msg t m)
    (hm : m < ml) :
    run_code e code input ml =
      { time := t, memory := m, verdict := "Runtime Error",
        output := none, error := some msg } := by
  simp only [run_code, hx, if_neg (not_le.mpr hm)]

/-- Witness for the amended C8 at env_raise_empty: peak 10 MB is below the
256 MB default limit. -/
theorem run_code_runtime_error_witness :
    run_code env_raise_empty "raise Exception" "" 256 =
      { time := 1, memory := 10, verdict := "Runtime Error",
        output := none, error := some "" } :=
  run_code_runtime_error env_raise_empty "raise Exception" "" "" 256 1 10 rfl
    (by norm_num)

/-- C9 counterexample: a failure whose sampled peak memory is 300 MB is
classified "Memory Limit Error" by the scheduler path even though a caller
choosing memory_limit = 512 MB for the request should, under the claim, get
"Runtime Error" (as the direct run_code call at 512 shows, 300 being below
512).  The request tuple handled by _run_code_wrapper is (code, case,
time_limit) with no memory-limit component, and the wrapper spawns run_code
without passing one, so classification always uses run_code's default 256. -/
theorem request_memory_limit_counterexample :
    (_run_code_wrapper env_mle ("c", "i", 2)).verdict = "Memory Limit Error" ∧
    (run_code env_mle "c" "i" 512).verdict = "Runtime Error" := by
  exact ⟨by decide, by decide⟩

/-- C9 amended: a request carries only code, input and a caller-chosen
time_limit (test_code_single_case defaults it to 2.0 seconds); no per-request
memory limit exists — the wrapper always invokes run_code with its default of
256 MB, so memory violations are always classified against 256 MB. -/
theorem request_no_memory_limit (e : Env) (code case_ : String) (tl : Rat)
    (h : e.worker code case_ = .exitedDelivered) :
    _run_code_wrapper e (code, case_, tl) = run_code e code case_ 256 ∧
    test_code_single_case e code case_ = _run_code_wrapper e (code, case_, 2) := by
  constructor
  · simp only [_run_code_wrapper, h]
  · rfl

/-- Witness for the amended C9 at env_mle, whose worker delivers its queued
result. -/
theorem request_no_memory_limit_witness :
    _run_code_wrapper env_mle ("c", "i", 2) = run_code env_mle "c" "i" 256 ∧
    test_code_single_case env_mle "c" "i" = _run_code_wrapper env_mle ("c", "i", 2) :=
  request_no_memory_limit env_mle "c" "i" 2 rfl

/-- Helper: the output/error shape of every result run_code can produce. -/
theorem run_code_invariant_aux (e : Env) (code input : String) (ml : Rat) :
    ((∃ o, (run_code e code input ml).output = some o) ↔
        (run_code e code input ml).verdict = "OK") ∧
    ((run_code e code input ml).verdict = "OK" ∨
        (run_code e code input ml).verdict = "Time Limit Error" →
      (run_code e code input ml).error = none) ∧
    ((run_code e code input ml).verdict = "Memory Limit Error" ∨
        (run_code e code input ml).verdict = "Runtime Error" →
      ∃ msg, (run_code e code input ml).error = some msg) := by
  unfold run_code
  cases hx : e.execRun code input default_globals with
  | raises msg t m =>
      by_cases hm : ml ≤ m <;> simp [hm]
  | completes out t m => simp

/-- C4 counterexample: the timeout result produced by the scheduler wrapper
has verdict "Time Limit Error" — not "OK" — and yet its error field is
unset, refuting the direction "error is unset only if the verdict is OK" of
the claimed invariant. -/
theorem engine_error_iff_ok_counterexample :
    EngineResult (_run_code_wrapper env_tle ("c", "i", 2)) ∧
    (_run_code_wrapper env_tle ("c", "i", 2)).verdict ≠ "OK" ∧
    (_run_code_wrapper env_tle ("c", "i", 2)).error = none :=
  ⟨Or.inl ⟨env_tle, ("c", "i", 2), rfl⟩, by decide, rfl⟩

/-- C4 amended: for every result the engine produces, output is set if and
only if the verdict is "OK"; error is unset whenever the verdict is "OK" or
"Time Limit Error", and set whenever it is "Memory Limit Error" or
"Runtime Error". -/
theorem engine_output_error_invariant (r : CodeResult) (h : EngineResult r) :
    ((∃ o, r.output = some o) ↔ r.verdict = "OK") ∧
    (r.verdict = "OK" ∨ r.verdict = "Time Limit Error" → r.error = none) ∧
    (r.verdict = "Memory Limit Error" ∨ r.verdict = "Runtime Error" →
      ∃ msg, r.error = some msg) := by
  rcases h with ⟨e, args, rfl⟩ | ⟨e, code, input, ml, rfl⟩
  · rcases args with ⟨code, case_, tl⟩
    cases hw : e.worker code case_ with
    | aliveAtTimeout => simp [_run_code_wrapper, hw]
    | exitedDelivered =>
        simp only [_run_code_wrapper, hw]
        exact run_code_invariant_aux e code case_ 256
    | exitedChannelEmpty msg => simp [_run_code_wrapper, hw]
  · exact run_code_invariant_aux e code input ml

/-- Witness for the amended C4 at a concrete engine-produced result. -/
theorem engine_output_error_invariant_witness :
    ((∃ o, (_run_code_wrapper env_ok ("c", "i", 2)).output = some o) ↔
        (_run_code_wrapper env_ok ("c", "i", 2)).verdict = "OK") ∧
    ((_run_code_wrapper env_ok ("c", "i", 2)).verdict = "OK" ∨
        (_run_code_wrapper env_ok ("c", "i", 2)).verdict = "Time Limit Error" →
      (_run_code_wrapper env_ok ("c", "i", 2)).error = none) ∧
    ((_run_code_wrapper env_ok ("c", "i", 2)).verdict = "Memory Limit Error" ∨
        (_run_code_wrapper env_ok ("c", "i", 2)).verdict = "Runtime Error" →
      ∃ msg, (_run_code_wrapper env_ok ("c", "i", 2)).error = some msg) :=
  engine_output_error_invariant (_run_code_wrapper env_ok ("c", "i", 2))
    (Or.inl ⟨env_ok, ("c", "i", 2), rfl⟩)

/-- C7 counterexample: the execution namespace contains the key
"__builtins__" — bound to the interpreter's full, general-purpose builtins
module — which is not among the four whitelisted utility capabilities the
claim allows, refuting "exposes only the fixed whitelist". -/
theorem default_globals_beyond_whitelist :
    "__builtins__" ∈ default_globals ∧
    "__builtins__" ∉ spec_namespace_whitelist := by
  decide

/-- C7 amended: every execution evaluates the snippet against the one fixed
namespace default_globals — run_code depends on the exec oracle only at that
namespace, never at a caller-supplied or general one — and that namespace
consists of exactly the four whitelisted utility modules plus
"__builtins__", the interpreter's full builtins. -/
theorem run_code_fixed_namespace (e₁ e₂ : Env) (code input : String)
    (ml : Rat)
    (h : e₁.execRun code input default_globals
        = e₂.execRun code input default_globals) :
    run_code e₁ code input ml = run_code e₂ code input ml ∧
    default_globals = "__builtins__" :: spec_namespace_whitelist := by
  constructor
  · simp only [run_code, h]
  · rfl

/-- Witness for the amended C7 at env_ok. -/
theorem run_code_fixed_namespace_witness :
    run_code env_ok "c" "i" 256 = run_code env_ok "c" "i" 256 ∧
    default_globals = "__builtins__" :: spec_namespace_whitelist :=
  run_code_fixed_namespace env_ok env_ok "c" "i" 256 rfl

/-- C1: for every code string and list of N cases, test_code_multi_cases
returns exactly N results and result i is the execution result for case i —
the pool's executor.map collects results by input index, independent of
worker completion order, so no request is dropped or answered out of
place. -/
theorem test_code_multi_cases_ordered (e : Env) (code : String)
    (cs : List String) (tl : Rat) :
    (test_code_multi_cases e code cs tl).length = cs.length ∧
    ∀ (i : Nat) (c : String), cs[i]? = some c →
      (test_code_multi_cases e code cs tl)[i]? =
        some (test_code_single_case e code c tl) := by
  unfold test_code_multi_cases
  by_cases hemp : cs.isEmpty
  · have hnil : cs = [] := List.isEmpty_iff.mp hemp
    subst hnil
    refine ⟨rfl, ?_⟩
    intro i c hc
    simp at hc
  · rw [if_neg (by simp [hemp])]
    constructor
    · simp
    · intro i c hc
      simp [List.map_map, List.getElem?_map, hc, test_code_single_case,
        Function.comp]

/-- Witness for C1: a two-case batch, checked at index 1. -/
theorem test_code_multi_cases_ordered_witness :
    (test_code_multi_cases env_ok "print(1)" ["a", "b"] 2).length = 2 ∧
    (test_code_multi_cases env_ok "print(1)" ["a", "b"] 2)[1]? =
      some (test_code_single_case env_ok "print(1)" "b" 2) :=
  ⟨(test_code_multi_cases_ordered env_ok "print(1)" ["a", "b"] 2).1,
   (test_code_multi_cases_ordered env_ok "print(1)" ["a", "b"] 2).2 1 "b" rfl⟩

/-- Helper: the regrouping fold of test_multi_code never changes the number
of groups. -/
theorem length_group_foldl {β : Type} (ps : List (Nat × β)) :
    ∀ acc : List (List β),
      (ps.foldl (fun acc p => acc.set p.1 (acc.getD p.1 [] ++ [p.2]))
        acc).length = acc.length := by
  induction ps with
  | nil => intro acc; rfl
  | cons hd tl ih =>
      intro acc
      rw [List.foldl_cons, ih, List.length_set]

/-- Helper: group m of the regrouping fold collects, in order, exactly the
payloads of the pairs tagged m. -/
theorem getD_group_foldl {β : Type} (ps : List (Nat × β)) :
    ∀ (acc : List (List β)) (m : Nat), m < acc.length →
      (ps.foldl (fun acc p => acc.set p.1 (acc.getD p.1 [] ++ [p.2]))
          acc).getD m []
        = acc.getD m [] ++ (ps.filter (fun p => p.1 = m)).map Prod.snd := by
  induction ps with
  | nil => intro acc m hm; simp
  | cons hd tl ih =>
      intro acc m hm
      rw [List.foldl_cons, ih _ m (by simpa [List.length_set] using hm)]
      by_cases hci : hd.1 = m
      · have hset : (acc.set hd.1 (acc.getD hd.1 [] ++ [hd.2])).getD m []
            = acc.getD m [] ++ [hd.2] := by
          rw [hci]
          simp [List.getD_eq_getElem?_getD, List.getElem?_set_self hm]
        rw [hset, List.filter_cons]
        simp [hci, List.append_assoc]
      · have hset : (acc.set hd.1 (acc.getD hd.1 [] ++ [hd.2])).getD m []
            = acc.getD m [] := by
          simp [List.getD_eq_getElem?_getD, List.getElem?_set_ne hci]
        rw [hset, List.filter_cons]
        simp [hci]

/-- Helper: filtering the flat tagged batch for tag m yields the block built
from the m-th code, the tags produced by enumerating the codes from s being
s, s+1, and so on, each exactly once. -/
theorem filter_tag_enumFrom {β : Type} (cs : List String)
    (h : String → String → β) :
    ∀ (codes : List String) (s m : Nat),
      (((codes.enumFrom s).flatMap fun p =>
          cs.map fun c => (p.1, h p.2 c)).filter (fun q => q.1 = m))
        = if s ≤ m then
            (codes[m - s]?).elim [] fun code => cs.map fun c => (m, h code c)
          else [] := by
  intro codes
  induction codes with
  | nil =>
      intro s m
      simp [List.enumFrom_nil]
  | cons a l ih =>
      intro s m
      rw [List.enumFrom_cons, List.flatMap_cons, List.filter_append, ih (s + 1) m]
      by_cases hsm : s = m
      · subst hsm
        have hblock : ((cs.map fun c => (s, h a c)).filter
            (fun q => q.1 = s)) = cs.map fun c => (s, h a c) := by
          apply List.filter_eq_self.mpr
          intro x hx
          rcases List.mem_map.mp hx with ⟨c, _, rfl⟩
          simp
        rw [hblock, if_neg (by omega), List.append_nil, if_pos (le_refl s),
          Nat.sub_self, List.getElem?_cons_zero]
        rfl
      · have hblock : ((cs.map fun c => (s, h a c)).filter
            (fun q => q.1 = m)) = [] := by
          apply List.filter_eq_nil_iff.mpr
          intro x hx
          rcases List.mem_map.mp hx with ⟨c, _, rfl⟩
          simp [hsm]
        rw [hblock, List.nil_append]
        by_cases hle : s ≤ m
        · rw [if_pos (by omega), if_pos hle]
          have hms : m - s = (m - (s + 1)) + 1 := by omega
          rw [hms, List.getElem?_cons_succ]
        · rw [if_neg (by omega), if_neg hle]

/-- C6 counterexample: for the M = 2 codes and N = 0 cases the claim demands
a collection of exactly 2 entries (each of length 0), but test_multi_code
returns the empty collection on degenerate input. -/
theorem test_multi_code_degenerate_counterexample :
    test_multi_code env_ok ["a", "b"] [] 2 = [] ∧
    (test_multi_code env_ok ["a", "b"] [] 2).length ≠ 2 :=
  ⟨rfl, by decide⟩

/-- C6 amended: for M codes and a NONEMPTY list of N cases, test_multi_code
builds the flat Cartesian product tagged by code index, submits it as one
batch, and regroups so that the result has exactly M entries, each of length
N, with entry m, n equal to what the single-request run
test_code_single_case (codes m) (cases n) with the same time_limit produces;
when either input list is empty it returns the empty collection instead. -/
theorem test_multi_code_correct (e : Env) (codes cs : List String) (tl : Rat)
    (hcs : cs ≠ []) :
    (test_multi_code e codes cs tl).length = codes.length ∧
    (∀ (m : Nat) (row : List CodeResult),
      (test_multi_code e codes cs tl)[m]? = some row →
        row.length = cs.length) ∧
    (∀ (m n : Nat) (code c : String),
      codes[m]? = some code → cs[n]? = some c →
      ∃ row, (test_multi_code e codes cs tl)[m]? = some row ∧
        row[n]? = some (test_code_single_case e code c tl)) := by
  by_cases hcodes : codes = []
  · subst hcodes
    refine ⟨rfl, ?_, ?_⟩
    · intro m row hrow
      simp [test_multi_code] at hrow
    · intro m n code c hcode hc
      simp at hcode
  · have hcodes' : codes.isEmpty = false := by
      cases codes with
      | nil => exact absurd rfl hcodes
      | cons a t => rfl
    have hcs' : cs.isEmpty = false := by
      cases cs with
      | nil => exact absurd rfl hcs
      | cons a t => rfl
    have hopen : test_multi_code e codes cs tl
        = ((codes.enumFrom 0).flatMap fun p =>
            cs.map fun c => (p.1, _run_code_wrapper e (p.2, c, tl))).foldl
            (fun acc p => acc.set p.1 (acc.getD p.1 [] ++ [p.2]))
            (List.replicate codes.length []) := by
      simp only [test_multi_code, hcodes', hcs', Bool.or_self,
        Bool.false_eq_true, if_false]
      rw [List.map_flatMap]
      have hfun : (fun (p : Nat × String) =>
          List.map (fun a => (a.1, _run_code_wrapper e (a.2.1, a.2.2, tl)))
            (List.map (fun case_ => (p.1, p.2, case_)) cs))
          = fun (p : Nat × String) =>
              List.map (fun c => (p.1, _run_code_wrapper e (p.2, c, tl))) cs := by
        funext p
        rw [List.map_map]
        rfl
      rw [hfun]
      rfl
    have hlenR : (test_multi_code e codes cs tl).length = codes.length := by
      rw [hopen, length_group_foldl, List.length_replicate]
    have hrowD : ∀ (m : Nat) (code : String), codes[m]? = some code →
        (test_multi_code e codes cs tl).getD m []
          = cs.map fun c => _run_code_wrapper e (code, c, tl) := by
      intro m code hcode
      obtain ⟨hmlt, -⟩ := List.getElem?_eq_some.mp hcode
      rw [hopen, getD_group_foldl _ _ m (by simpa using hmlt),
        filter_tag_enumFrom cs
          (fun code c => _run_code_wrapper e (code, c, tl)) codes 0 m,
        if_pos (Nat.zero_le m), Nat.sub_zero, hcode]
      simp [List.getD_eq_getElem?_getD, List.getElem?_replicate, hmlt,
        List.map_map, Function.comp, Option.elim]
    have hgetDsome : ∀ (m : Nat), m < codes.length →
        (test_multi_code e codes cs tl)[m]?
          = some ((test_multi_code e codes cs tl).getD m []) := by
      intro m hm
      have hm' : m < (test_multi_code e codes cs tl).length := by
        rw [hlenR]; exact hm
      rw [List.getD_eq_getElem?_getD, List.getElem?_eq_getElem hm']
      rfl
    refine ⟨hlenR, ?_, ?_⟩
    · intro m row hrow
      have hm' : m < (test_multi_code e codes cs tl).length := by
        by_contra hge
        rw [List.getElem?_eq_none (Nat.le_of_not_lt hge)] at hrow
        exact Option.noConfusion hrow
      have hm : m < codes.length := by rw [← hlenR]; exact hm'
      have hcode := List.getElem?_eq_getElem hm
      have hrow' : row = (test_multi_code e codes cs tl).getD m [] := by
        have := hgetDsome m hm
        rw [hrow] at this
        exact Option.some.inj this
      rw [hrow', hrowD m _ hcode, List.length_map]
    · intro m n code c hcode hc
      obtain ⟨hmlt, -⟩ := List.getElem?_eq_some.mp hcode
      refine ⟨(test_multi_code e codes cs tl).getD m [], hgetDsome m hmlt, ?_⟩
      rw [hrowD m code hcode]
      simp [List.getElem?_map, hc, test_code_single_case]

/-- Witness for the amended C6: two codes against one case, checked at entry
m = 1, n = 0. -/
theorem test_multi_code_correct_witness :
    ∃ row, (test_multi_code env_ok ["a", "b"] ["x"] 2)[1]? = some row ∧
      row[0]? = some (test_code_single_case env_ok "b" "x" 2) :=
  (test_multi_code_correct env_ok ["a", "b"] ["x"] 2
    (List.cons_ne_nil "x" [])).2.2 1 0 "b" "x" rfl rfl

end Generation
